import Mathlib

/-!
Shallow embedding of the VortexL2 socat forwarding backend
(`vortexl2/socat_manager.py`) and the mode-transition branch of
`vortexl2/main.py`, with theorems checking the specified contracts.

The operating system is modelled as an oracle: each call to
`run_command` consumes the next `ExecOutcome` from a script, so every
theorem quantifies over all possible OS behaviours.  A second, concrete
process-table model gives the semantics of the `pgrep`/`pkill` patterns.
-/

namespace VortexL2

/-- Outcome of `subprocess.run` as observed by `run_command`: normal
completion with a return code and captured output, a
`subprocess.TimeoutExpired`, or any other raised exception. -/
inductive ExecOutcome where
  | completed (returncode : Int) (stdout stderr : String)
  | timedOut
  | raised (msg : String)
deriving DecidableEq

/-- Embedding of `run_command` (socat_manager.py lines 13-27): returns
`(returncode == 0, stdout, stderr)` on completion, and maps the two
exception handlers to failure results. -/
def run_command (o : ExecOutcome) : Bool × String × String :=
  match o with
  | .completed rc out err => (decide (rc = 0), out, err)
  | .timedOut => (false, "", "Command timed out")
  | .raised msg => (false, "", msg)

/-- The decimal digit character for `d % 10`-style values. -/
def digitChar : Nat → Char
  | 0 => '0'
  | 1 => '1'
  | 2 => '2'
  | 3 => '3'
  | 4 => '4'
  | 5 => '5'
  | 6 => '6'
  | 7 => '7'
  | 8 => '8'
  | _ => '9'

/-- Fuelled decimal rendering of a natural number (most significant
digit first); the fuel is always sufficient when it is at least the
value. -/
def natToDecAux : Nat → Nat → List Char
  | 0, _ => []
  | _ + 1, 0 => []
  | fuel + 1, n + 1 =>
    natToDecAux fuel ((n + 1) / 10) ++ [digitChar ((n + 1) % 10)]

/-- Decimal rendering of a natural number, the embedding of Python
f-string interpolation of an `int`. -/
def natToDec (n : Nat) : List Char :=
  if n = 0 then ['0'] else natToDecAux n n

theorem digitChar_isDigit (d : Nat) : (digitChar d).isDigit = true := by
  unfold digitChar
  split <;> decide

theorem natToDecAux_digits (fuel : Nat) :
    ∀ n, ∀ c ∈ natToDecAux fuel n, c.isDigit = true := by
  induction fuel with
  | zero => intro n c hc; simp [natToDecAux] at hc
  | succ fuel ih =>
    intro n c hc
    cases n with
    | zero => simp [natToDecAux] at hc
    | succ m =>
      simp only [natToDecAux, List.mem_append, List.mem_singleton] at hc
      rcases hc with hc | hc
      · exact ih _ c hc
      · subst hc; exact digitChar_isDigit _

theorem natToDec_digits (n : Nat) : ∀ c ∈ natToDec n, c.isDigit = true := by
  intro c hc
  unfold natToDec at hc
  split at hc
  · simp at hc; subst hc; decide
  · exact natToDecAux_digits n n c hc

theorem natToDecAux_ne_nil (fuel n : Nat) (hf : n ≤ fuel) (hn : 0 < n) :
    natToDecAux fuel n ≠ [] := by
  cases fuel with
  | zero => omega
  | succ f =>
    cases n with
    | zero => omega
    | succ m => simp [natToDecAux]

theorem natToDec_ne_nil (n : Nat) : natToDec n ≠ [] := by
  unfold natToDec
  split
  · simp
  · exact natToDecAux_ne_nil n n le_rfl (by omega)

theorem natToDec_len_pos (n : Nat) : 0 < (natToDec n).length :=
  List.length_pos.mpr (natToDec_ne_nil n)

/-- Embedding of Python `str.strip()` on the character list of a
string: drop whitespace from both ends. -/
def pythonStrip (l : List Char) : List Char :=
  ((l.dropWhile Char.isWhitespace).reverse.dropWhile Char.isWhitespace).reverse

theorem pythonStrip_ne_nil {l : List Char} {c : Char}
    (hc : c ∈ l) (hw : c.isWhitespace = false) : pythonStrip l ≠ [] := by
  intro h
  unfold pythonStrip at h
  rw [List.reverse_eq_nil_iff] at h
  have h2 : ∀ a ∈ (l.dropWhile Char.isWhitespace).reverse, a.isWhitespace = true :=
    List.dropWhile_eq_nil_iff.mp h
  have h3 : c ∈ l.dropWhile Char.isWhitespace := by
    have hsplit := List.takeWhile_append_dropWhile (p := Char.isWhitespace) (l := l)
    rw [← hsplit] at hc
    rcases List.mem_append.mp hc with hmem | hmem
    · have := List.mem_takeWhile_imp hmem
      rw [hw] at this
      exact absurd this (by simp)
    · exact hmem
  have := h2 c (List.mem_reverse.mpr h3)
  rw [hw] at this
  exact absurd this (by simp)

/-! ### String-pattern machinery

The pgrep/pkill patterns built by the manager are
`socat.*TCP-LISTEN:<port>[^0-9]` (port-specific) and
`socat.*TCP-LISTEN` (generic), and the process-table parser extracts
tokens with `TCP-LISTEN:(\d+)` and `TCP:([\d.]+):(\d+)`.  We embed
their matching semantics on `List Char`. -/

/-- The literal characters of `socat`. -/
def socatTok : List Char := ['s', 'o', 'c', 'a', 't']

/-- The literal characters of `TCP-LISTEN:`. -/
def tcpListenTok : List Char :=
  ['T', 'C', 'P', '-', 'L', 'I', 'S', 'T', 'E', 'N', ':']

/-- The literal characters of `TCP-LISTEN` (no colon), the generic
kill pattern's second token. -/
def tcpListenBareTok : List Char :=
  ['T', 'C', 'P', '-', 'L', 'I', 'S', 'T', 'E', 'N']

/-- The literal characters of `TCP:`. -/
def tcpColonTok : List Char := ['T', 'C', 'P', ':']

/-- The literal characters of `,fork,reuseaddr `. -/
def forkTok : List Char :=
  [',', 'f', 'o', 'r', 'k', ',', 'r', 'e', 'u', 's', 'e', 'a', 'd', 'd', 'r', ' ']

/-- If `pat` is a leading segment of `s`, return the remainder. -/
def matchPre : List Char → List Char → Option (List Char)
  | [], s => some s
  | _ :: _, [] => none
  | p :: ps, c :: cs => if p = c then matchPre ps cs else none

theorem matchPre_some_iff (pat : List Char) :
    ∀ s r, matchPre pat s = some r ↔ s = pat ++ r := by
  induction pat with
  | nil => intro s r; simp [matchPre, eq_comm]
  | cons p ps ih =>
    intro s r
    cases s with
    | nil => simp [matchPre]
    | cons c cs =>
      simp only [matchPre]
      by_cases h : p = c
      · subst h; simp [ih]
      · simp [h]; intro h'; exact absurd h'.symm h

/-- Does some suffix of `s` satisfy `f`?  This gives the semantics of
an unanchored regex search. -/
def anySuffix (f : List Char → Bool) : List Char → Bool
  | [] => f []
  | c :: rest => f (c :: rest) || anySuffix f rest

theorem anySuffix_iff (f : List Char → Bool) :
    ∀ s, anySuffix f s = true ↔ ∃ a b, s = a ++ b ∧ f b = true := by
  intro s
  induction s with
  | nil =>
    simp only [anySuffix]
    constructor
    · intro h; exact ⟨[], [], rfl, h⟩
    · rintro ⟨a, b, hab, hf⟩
      have hb : b = [] := by
        cases a <;> simp_all
      rw [← hb]; exact hf
  | cons c cs ih =>
    simp only [anySuffix, Bool.or_eq_true, ih]
    constructor
    · rintro (h | ⟨a, b, hab, hf⟩)
      · exact ⟨[], c :: cs, rfl, h⟩
      · exact ⟨c :: a, b, by simp [hab], hf⟩
    · rintro ⟨a, b, hab, hf⟩
      cases a with
      | nil => left; simp at hab; rw [← hab] at hf; exact hf
      | cons x xs =>
        right
        simp only [List.cons_append, List.cons.injEq] at hab
        exact ⟨xs, b, hab.2, hf⟩

/-- One position of the port-specific pattern tail: the text starts
with `TCP-LISTEN:<digits of p>` followed by a non-digit character
(the `[^0-9]` class requires a following character). -/
def listenPatHere (p : Nat) (s : List Char) : Bool :=
  match matchPre (tcpListenTok ++ natToDec p) s with
  | some (c :: _) => !c.isDigit
  | _ => false

theorem listenPatHere_iff (p : Nat) (s : List Char) :
    listenPatHere p s = true ↔
      ∃ c rest, s = tcpListenTok ++ natToDec p ++ (c :: rest) ∧ c.isDigit = false := by
  unfold listenPatHere
  rcases h : matchPre (tcpListenTok ++ natToDec p) s with _ | r
  · simp only [Bool.false_eq_true, false_iff]
    rintro ⟨c, rest, hs, _⟩
    rw [(matchPre_some_iff _ _ (c :: rest)).mpr (by rw [hs, List.append_assoc])] at h
    exact absurd h (by simp)
  · have hs := (matchPre_some_iff _ _ _).mp h
    cases r with
    | nil =>
      simp only [Bool.false_eq_true, false_iff]
      rintro ⟨c, rest, hs', _⟩
      rw [hs', List.append_assoc] at hs
      have := List.append_cancel_left hs.symm
      simp at this
    | cons c rest =>
      simp only [Bool.not_eq_true']
      constructor
      · intro hc; exact ⟨c, rest, by rw [hs, List.append_assoc], hc⟩
      · rintro ⟨c', rest', hs', hc'⟩
        rw [hs', List.append_assoc] at hs
        have := List.append_cancel_left hs.symm
        simp only [List.cons.injEq] at this
        rw [this.1]; exact hc'

/-- Matching semantics of the regex `socat.*TCP-LISTEN:<p>[^0-9]`
against a whole command line (unanchored, as `pgrep -f`/`pkill -f`
match anywhere in the command line). -/
def matchesPortPat (p : Nat) (s : List Char) : Bool :=
  anySuffix (fun t =>
    match matchPre socatTok t with
    | some r => anySuffix (listenPatHere p) r
    | none => false) s

/-- Matching semantics of the generic pattern `socat.*TCP-LISTEN`. -/
def matchesGenericPat (s : List Char) : Bool :=
  anySuffix (fun t =>
    match matchPre socatTok t with
    | some r => anySuffix (fun u => (matchPre tcpListenBareTok u).isSome) r
    | none => false) s

theorem matchesPortPat_iff (p : Nat) (s : List Char) :
    matchesPortPat p s = true ↔
      ∃ a b c rest, s = a ++ socatTok ++ b ++ tcpListenTok ++ natToDec p ++ (c :: rest) ∧
        c.isDigit = false := by
  unfold matchesPortPat
  rw [anySuffix_iff]
  constructor
  · rintro ⟨a, t, hs, hf⟩
    rcases h : matchPre socatTok t with _ | r
    · rw [h] at hf; exact absurd hf (by simp)
    · rw [h] at hf
      have ht := (matchPre_some_iff _ _ _).mp h
      rcases (anySuffix_iff _ _).mp hf with ⟨b, u, hr, hu⟩
      rcases (listenPatHere_iff _ _).mp hu with ⟨c, rest, hu', hc⟩
      refine ⟨a, b, c, rest, ?_, hc⟩
      rw [hs, ht, hr, hu']
      simp [List.append_assoc]
  · rintro ⟨a, b, c, rest, hs, hc⟩
    refine ⟨a, socatTok ++ b ++ tcpListenTok ++ natToDec p ++ (c :: rest), by
      rw [hs]; simp [List.append_assoc], ?_⟩
    have h : matchPre socatTok
        (socatTok ++ (b ++ tcpListenTok ++ natToDec p ++ (c :: rest))) =
        some (b ++ tcpListenTok ++ natToDec p ++ (c :: rest)) :=
      (matchPre_some_iff _ _ _).mpr rfl
    rw [show socatTok ++ b ++ tcpListenTok ++ natToDec p ++ (c :: rest) =
      socatTok ++ (b ++ tcpListenTok ++ natToDec p ++ (c :: rest)) by
        simp [List.append_assoc]]
    rw [h]
    rw [anySuffix_iff]
    refine ⟨b, tcpListenTok ++ natToDec p ++ (c :: rest), by simp [List.append_assoc], ?_⟩
    rw [listenPatHere_iff]
    exact ⟨c, rest, by simp [List.append_assoc], hc⟩

/-- Uniqueness of a split at a separator character that occurs in
neither side of a known decomposition. -/
theorem uniqueSplit {d : Char} {P Q X Y : List Char}
    (hP : d ∉ P) (hQ : d ∉ Q) (h : P ++ d :: Q = X ++ d :: Y) :
    X = P ∧ Y = Q := by
  rcases List.append_eq_append_iff.mp h with ⟨t, hX, ht⟩ | ⟨t, hP', ht⟩
  · cases t with
    | nil =>
      rw [List.append_nil] at hX
      simp only [List.nil_append, List.cons.injEq] at ht
      exact ⟨hX, ht.2.symm⟩
    | cons e t' =>
      exfalso
      rw [List.cons_append] at ht
      simp only [List.cons.injEq] at ht
      apply hQ
      rw [ht.2]
      exact List.mem_append_right _ (List.mem_cons_self _ _)
  · cases t with
    | nil =>
      rw [List.append_nil] at hP'
      simp only [List.nil_append, List.cons.injEq] at ht
      exact ⟨hP'.symm, ht.2⟩
    | cons e t' =>
      exfalso
      rw [List.cons_append] at ht
      simp only [List.cons.injEq] at ht
      apply hP
      rw [hP']
      refine List.mem_append_right _ ?_
      rw [ht.1]
      exact List.mem_cons_self _ _

/-- The command line of a launched socat process, as it appears in the
process table after
`nohup socat TCP-LISTEN:<lp>,fork,reuseaddr TCP:<ip>:<rp> ... &`. -/
def socatCmdline (lp : Nat) (ip : List Char) (rp : Nat) : List Char :=
  socatTok ++ [' '] ++ tcpListenTok ++ natToDec lp ++ forkTok ++
    tcpColonTok ++ ip ++ [':'] ++ natToDec rp

/-- A character of an IP string: a decimal digit or a dot. -/
def isHostChar (c : Char) : Bool := c.isDigit || c = '.'

theorem dash_not_in_natToDec (n : Nat) : '-' ∉ natToDec n := by
  intro h
  have := natToDec_digits n _ h
  exact absurd this (by decide)

/-- The port-specific pattern for `p` does not match the command line
of a forward on a different port `q` whose decimal digits extend those
of `p` (for example `p = 8`, `q = 80`).  The `[^0-9]` suffix of the
pattern forces the character after the port digits to be a non-digit,
and the digits of `q` continue with a digit there. -/
theorem matchesPortPat_socatCmdline_false (p q rp : Nat) (ip : List Char)
    (hip : ∀ c ∈ ip, isHostChar c = true)
    (hpre : ∃ e, e ≠ [] ∧ natToDec q = natToDec p ++ e) :
    matchesPortPat p (socatCmdline q ip rp) = false := by
  rcases hpre with ⟨e, he, hqe⟩
  by_contra hmatch
  rw [Bool.not_eq_false] at hmatch
  rcases (matchesPortPat_iff _ _).mp hmatch with ⟨a, b, c, rest, hs, hc⟩
  -- Both sides decompose the line at its unique dash.
  have hTL : tcpListenTok = ['T', 'C', 'P'] ++ '-' :: ['L', 'I', 'S', 'T', 'E', 'N', ':'] := by
    decide
  have hcanon : socatCmdline q ip rp =
      (socatTok ++ [' '] ++ ['T', 'C', 'P']) ++ '-' ::
        (['L', 'I', 'S', 'T', 'E', 'N', ':'] ++ (natToDec q ++ forkTok ++
          tcpColonTok ++ ip ++ [':'] ++ natToDec rp)) := by
    unfold socatCmdline
    rw [hTL]
    simp [List.append_assoc]
  have hother : socatCmdline q ip rp =
      (a ++ socatTok ++ b ++ ['T', 'C', 'P']) ++ '-' ::
        (['L', 'I', 'S', 'T', 'E', 'N', ':'] ++ (natToDec p ++ (c :: rest))) := by
    rw [hs, hTL]
    simp [List.append_assoc]
  have hP : '-' ∉ socatTok ++ [' '] ++ ['T', 'C', 'P'] := by decide
  have hQ : '-' ∉ ['L', 'I', 'S', 'T', 'E', 'N', ':'] ++ (natToDec q ++ forkTok ++
      tcpColonTok ++ ip ++ [':'] ++ natToDec rp) := by
    intro hmem
    simp only [List.mem_append, List.mem_singleton, or_assoc] at hmem
    rcases hmem with h | h | h | h | h | h | h
    · exact absurd h (by decide)
    · exact dash_not_in_natToDec q h
    · exact absurd h (by decide)
    · exact absurd h (by decide)
    · have := hip _ h
      exact absurd this (by decide)
    · exact absurd h (by decide)
    · exact dash_not_in_natToDec rp h
  have heq := hcanon.symm.trans hother
  have hsplit := uniqueSplit hP hQ heq
  have htail := List.append_cancel_left hsplit.2
  -- The digits of q continue past those of p with a digit, but the
  -- pattern requires a non-digit there.
  rw [hqe] at htail
  simp only [List.append_assoc] at htail
  have htail2 := List.append_cancel_left htail
  cases e with
  | nil => exact he rfl
  | cons d e' =>
    rw [List.cons_append] at htail2
    simp only [List.cons.injEq] at htail2
    have hd : d ∈ natToDec q := by
      rw [hqe]
      exact List.mem_append_right _ (List.mem_cons_self _ _)
    have hdig := natToDec_digits q d hd
    rw [htail2.1] at hc
    rw [hdig] at hc
    exact absurd hc (by simp)

/-! ### Result messages of SocatManager (verbatim from the source) -/

/-- Decimal string of a natural number, for message interpolation. -/
def natStr (n : Nat) : String := String.mk (natToDec n)

def notInstalledMsg : String :=
  "socat is not installed. Install with: apt-get install socat"

def alreadyForwardedMsg (p : Nat) : String :=
  "Port " ++ natStr p ++ " is already being forwarded"

def failedStartMsg (err : String) : String := "Failed to start socat: " ++ err

def startedMsg (lp : Nat) (ip : String) (rp : Nat) : String :=
  "Socat forward started: " ++ natStr lp ++ " → " ++ ip ++ ":" ++ natStr rp

def notStartedMsg : String := "Socat process did not start successfully"

def notForwardedMsg (p : Nat) : String :=
  "Port " ++ natStr p ++ " is not being forwarded"

def stoppedMsg (p : Nat) : String :=
  "Stopped socat forward on port " ++ natStr p

def failStopMsg (p : Nat) : String :=
  "Failed to stop socat on port " ++ natStr p

def allStoppedMsg : String := "All socat forwards stopped"

def someRemainMsg (n : Nat) : String :=
  "Some socat processes still running: " ++ natStr n ++ " remaining"

/-! ### Process-table world model

This model interprets the `pgrep`/`pkill` commands the manager issues
against a concrete process table, giving the semantics of
`is_port_forwarded` and `stop_forward` needed for the pattern-precision
claim. -/

/-- One live operating-system process: its pid and full command line. -/
structure Proc where
  pid : Nat
  cmdline : List Char
deriving DecidableEq

/-- The stdout produced by `pgrep`: one pid per line. -/
def pidLines : List Proc → List Char
  | [] => []
  | [pr] => natToDec pr.pid
  | pr :: rest => natToDec pr.pid ++ '\n' :: pidLines rest

/-- The `subprocess` outcome of `pgrep -f 'socat.*TCP-LISTEN:<p>[^0-9]'`
run against the process table: exit status 0 with the matching pids on
stdout when there is a match, exit status 1 and empty stdout otherwise. -/
def pgrepPortOutcome (p : Nat) (table : List Proc) : ExecOutcome :=
  let matched := table.filter (fun pr => matchesPortPat p pr.cmdline)
  .completed (if matched.isEmpty then 1 else 0) (String.mk (pidLines matched)) ""

/-- Embedding of `SocatManager.is_port_forwarded` (lines 119-131)
against the process table: run the pgrep command through `run_command`
and test `success and stdout.strip() != ""`. -/
def is_port_forwarded_w (table : List Proc) (p : Nat) : Bool :=
  let r := run_command (pgrepPortOutcome p table)
  r.1 && !(pythonStrip r.2.1.toList).isEmpty

/-- Effect of `pkill -f 'socat.*TCP-LISTEN:<p>[^0-9]'`: every process
whose command line matches the pattern is terminated. -/
def pkillPort (p : Nat) (table : List Proc) : List Proc :=
  table.filter (fun pr => !matchesPortPat p pr.cmdline)

/-- Embedding of `SocatManager.stop_forward` (lines 74-97) against the
process table: no-op success when the port is not forwarded, otherwise
kill by the port-specific pattern and re-check. -/
def stop_forward_w (table : List Proc) (p : Nat) : (Bool × String) × List Proc :=
  if !(is_port_forwarded_w table p) then ((true, notForwardedMsg p), table)
  else
    let table2 := pkillPort p table
    if !(is_port_forwarded_w table2 p) then ((true, stoppedMsg p), table2)
    else ((false, failStopMsg p), table2)

theorem isDigit_not_isWhitespace {c : Char} (h : c.isDigit = true) :
    c.isWhitespace = false := by
  simp only [Char.isDigit, Bool.and_eq_true, decide_eq_true_eq] at h
  by_contra hw
  rw [Bool.not_eq_false] at hw
  simp only [Char.isWhitespace, Bool.or_eq_true, decide_eq_true_eq] at hw
  rcases hw with ((he | he) | he) | he <;>
    (subst he; exact absurd h.1 (by decide))

theorem pidLines_head_digit (l : List Proc) (h : l ≠ []) :
    ∃ c t, pidLines l = c :: t ∧ c.isDigit = true := by
  match l with
  | [] => exact absurd rfl h
  | [pr] =>
    rcases hd : natToDec pr.pid with _ | ⟨c, t⟩
    · exact absurd hd (natToDec_ne_nil _)
    · refine ⟨c, t, by simp [pidLines, hd], ?_⟩
      exact natToDec_digits _ c (by rw [hd]; exact List.mem_cons_self _ _)
  | pr :: pr2 :: rest =>
    rcases hd : natToDec pr.pid with _ | ⟨c, t⟩
    · exact absurd hd (natToDec_ne_nil _)
    · refine ⟨c, t ++ '\n' :: pidLines (pr2 :: rest), by simp [pidLines, hd], ?_⟩
      exact natToDec_digits _ c (by rw [hd]; exact List.mem_cons_self _ _)

/-- `is_port_forwarded` is true exactly when some live process matches
the port-specific pattern. -/
theorem is_port_forwarded_w_iff (table : List Proc) (p : Nat) :
    is_port_forwarded_w table p = true ↔
      ∃ pr ∈ table, matchesPortPat p pr.cmdline = true := by
  unfold is_port_forwarded_w pgrepPortOutcome
  rcases hm : table.filter (fun pr => matchesPortPat p pr.cmdline) with _ | ⟨pr, rest⟩
  · simp only [hm, run_command]
    constructor
    · intro h; simp at h
    · rintro ⟨pr, hmem, hmatch⟩
      have : pr ∈ table.filter (fun pr => matchesPortPat p pr.cmdline) :=
        List.mem_filter.mpr ⟨hmem, hmatch⟩
      rw [hm] at this
      exact absurd this (by simp)
  · simp only [hm, run_command]
    constructor
    · intro _
      have hmem : pr ∈ table.filter (fun pr => matchesPortPat p pr.cmdline) := by
        rw [hm]; exact List.mem_cons_self _ _
      have := List.mem_filter.mp hmem
      exact ⟨pr, this.1, this.2⟩
    · intro _
      rcases pidLines_head_digit (pr :: rest) (by simp) with ⟨c, t, hpl, hdig⟩
      have hne : pythonStrip (String.mk (pidLines (pr :: rest))).toList ≠ [] := by
        have hcm : c ∈ (String.mk (pidLines (pr :: rest))).toList := by
          show c ∈ pidLines (pr :: rest)
          rw [hpl]; exact List.mem_cons_self _ _
        exact pythonStrip_ne_nil hcm (isDigit_not_isWhitespace hdig)
      rcases hps : pythonStrip (String.mk (pidLines (pr :: rest))).toList with _ | ⟨x, xs⟩
      · exact absurd hps hne
      · simp

/-! ### Parsing of `ps aux | grep '[s]ocat TCP-LISTEN'` output
(`list_active_forwards`, lines 133-190) -/

/-- Embedding of Python `str.split('\n')`: split at every newline,
keeping empty pieces. -/
def splitNl : List Char → List (List Char)
  | [] => [[]]
  | c :: rest =>
    if c = '\n' then [] :: splitNl rest
    else
      match splitNl rest with
      | g :: gs => (c :: g) :: gs
      | [] => [[c]]

/-- Accumulator-based embedding of Python `str.split()` (split on runs
of whitespace, no empty fields). -/
def splitWSAux : List Char → List Char → List (List Char)
  | [], acc => if acc.isEmpty then [] else [acc.reverse]
  | c :: rest, acc =>
    if c.isWhitespace then
      if acc.isEmpty then splitWSAux rest []
      else acc.reverse :: splitWSAux rest []
    else splitWSAux rest (c :: acc)

/-- Embedding of Python `str.split()` with no separator argument. -/
def splitWS (l : List Char) : List (List Char) := splitWSAux l []

/-- Embedding of `line.find(pat)` followed by `line[found:]`: the
suffix of `l` starting at the first occurrence of `pat`, if any. -/
def suffixFrom (pat : List Char) : List Char → Option (List Char)
  | [] => if (matchPre pat []).isSome then some [] else none
  | c :: rest =>
    if (matchPre pat (c :: rest)).isSome then some (c :: rest)
    else suffixFrom pat rest

/-- Take the maximal leading run of decimal digits. -/
def takeDigits : List Char → List Char × List Char
  | [] => ([], [])
  | c :: rest =>
    if c.isDigit then
      let r := takeDigits rest
      (c :: r.1, r.2)
    else ([], c :: rest)

/-- Numeric value of a digit string, the embedding of Python `int`. -/
def digitsVal (ds : List Char) : Nat :=
  ds.foldl (fun acc c => acc * 10 + (c.toNat - 48)) 0

/-- Take the maximal leading run of `[\d.]` characters. -/
def takeHostChars : List Char → List Char × List Char
  | [] => ([], [])
  | c :: rest =>
    if isHostChar c then
      let r := takeHostChars rest
      (c :: r.1, r.2)
    else ([], c :: rest)

/-- One anchored attempt of `re.search(r'TCP-LISTEN:(\d+)', _)`:
succeed if the text starts with `TCP-LISTEN:` followed by at least one
digit, returning the value of the maximal digit run. -/
def listenNumHere (s : List Char) : Option Nat :=
  match matchPre tcpListenTok s with
  | some r =>
    let d := takeDigits r
    if d.1.isEmpty then none else some (digitsVal d.1)
  | none => none

/-- One anchored attempt of `re.search(r'TCP:([\d.]+):(\d+)', _)`: the
greedy `[\d.]+` run must be followed by a colon and at least one
digit (no shorter run can be, since the character after a shorter run
is again in `[\d.]`). -/
def remoteHere (s : List Char) : Option (List Char × Nat) :=
  match matchPre tcpColonTok s with
  | some r =>
    let h := takeHostChars r
    if h.1.isEmpty then none
    else
      match h.2 with
      | ':' :: r2 =>
        let d := takeDigits r2
        if d.1.isEmpty then none else some (h.1, digitsVal d.1)
      | _ => none
  | none => none

/-- Leftmost match of an anchored attempt, the embedding of
`re.search`. -/
def findFirst {α : Type} (f : List Char → Option α) : List Char → Option α
  | [] => f []
  | c :: rest =>
    match f (c :: rest) with
    | some v => some v
    | none => findFirst f rest

/-- `re.search(r'TCP-LISTEN:(\d+)', s)`, returning the captured port. -/
def findListen (s : List Char) : Option Nat := findFirst listenNumHere s

/-- `re.search(r'TCP:([\d.]+):(\d+)', s)`, returning host and port. -/
def findRemote (s : List Char) : Option (List Char × Nat) := findFirst remoteHere s

/-- One parsed forwarding process, the embedding of the dict built by
`list_active_forwards` (pid kept as the raw text column, status always
`running`). -/
structure ForwardRec where
  pid : List Char
  local_port : Nat
  remote_ip : List Char
  remote_port : Nat
deriving DecidableEq

/-- Parse one line of the process listing (loop body of lines
150-188): skip empty lines, lines with fewer than 11 columns, lines
without the `socat` signature, and lines whose command part lacks the
listen or remote tokens. -/
def parseLine (line : List Char) : Option ForwardRec :=
  if line.isEmpty then none
  else
    let parts := splitWS line
    if parts.length < 11 then none
    else
      match suffixFrom socatTok line with
      | none => none
      | some cmdPart =>
        match findListen cmdPart with
        | none => none
        | some lp =>
          match findRemote cmdPart with
          | none => none
          | some rh => some ⟨parts.getD 1 [], lp, rh.1, rh.2⟩

/-- The records extracted from one `ps aux | grep` outcome: the whole
of `list_active_forwards` after the command has run (lines 144-190),
including the early return on command failure or empty stdout. -/
def scanOf (o : ExecOutcome) : List ForwardRec :=
  let r := run_command o
  if !r.1 || r.2.1 = "" then []
  else (splitNl (pythonStrip r.2.1.toList)).filterMap parseLine

/-! ### Oracle execution model

Each call to `run_command` consumes the next `ExecOutcome` from an
arbitrary script, and the command line issued is recorded.  Theorems
quantify over the script, so they hold for every behaviour of the
operating system. -/

/-- Execution state: the oracle script, the next call index, and the
command lines issued so far. -/
structure Sys where
  script : Nat → ExecOutcome
  idx : Nat
  issued : List String

/-- Initial state for one entry point. -/
def sysInit (script : Nat → ExecOutcome) : Sys := ⟨script, 0, []⟩

/-- Issue one command: pass it to `run_command` with the next scripted
outcome. -/
def issue (cmd : String) (s : Sys) : (Bool × String × String) × Sys :=
  (run_command (s.script s.idx), ⟨s.script, s.idx + 1, s.issued ++ [cmd]⟩)

/-! Command lines built by SocatManager (verbatim; `\x27` is the
single-quote character). -/

def whichSocatCmd : String := "which socat"

def pgrepPortCmd (p : Nat) : String :=
  "pgrep -f \x27socat.*TCP-LISTEN:" ++ natStr p ++ "[^0-9]\x27"

def socatLaunchCmd (lp : Nat) (ip : String) (rp : Nat) : String :=
  "nohup socat TCP-LISTEN:" ++ natStr lp ++ ",fork,reuseaddr TCP:" ++ ip ++ ":"
    ++ natStr rp ++ " >/dev/null 2>&1 &"

def pkillPortCmd (p : Nat) : String :=
  "pkill -f \x27socat.*TCP-LISTEN:" ++ natStr p ++ "[^0-9]\x27"

def pkillAllCmd : String := "pkill -f \x27socat.*TCP-LISTEN\x27"

def psListCmd : String := "ps aux | grep \x27[s]ocat TCP-LISTEN\x27"

/-- How `is_port_forwarded` interprets one pgrep outcome:
`success and stdout.strip() != ""`. -/
def respFwd (o : ExecOutcome) : Bool :=
  (run_command o).1 && !(pythonStrip (run_command o).2.1.toList).isEmpty

/-- Whether one outcome counts as command success. -/
def respOk (o : ExecOutcome) : Bool := (run_command o).1

/-- Embedding of `SocatManager.is_port_forwarded` in the oracle model:
issue the pgrep command and test `success and stdout.strip() != ""`. -/
def checkForwarded (p : Nat) (s : Sys) : Bool × Sys :=
  let r := issue (pgrepPortCmd p) s
  (r.1.1 && !(pythonStrip r.1.2.1.toList).isEmpty, r.2)

/-- Embedding of `SocatManager.start_forward` (lines 37-72): tool
check, already-forwarded check, launch, settle re-check. -/
def start_forward (lp : Nat) (ip : String) (rp : Nat) (s : Sys) :
    (Bool × String) × Sys :=
  let r0 := issue whichSocatCmd s
  if !r0.1.1 then ((false, notInstalledMsg), r0.2)
  else
    let c1 := checkForwarded lp r0.2
    if c1.1 then ((false, alreadyForwardedMsg lp), c1.2)
    else
      let r2 := issue (socatLaunchCmd lp ip rp) c1.2
      if !r2.1.1 then ((false, failedStartMsg r2.1.2.2), r2.2)
      else
        let c3 := checkForwarded lp r2.2
        if c3.1 then ((true, startedMsg lp ip rp), c3.2)
        else ((false, notStartedMsg), c3.2)

/-- Embedding of `SocatManager.stop_forward` (lines 74-97): no-op
success if not forwarded; otherwise kill by pattern (exit status
captured but never consulted) and settle re-check. -/
def stop_forward (p : Nat) (s : Sys) : (Bool × String) × Sys :=
  let c0 := checkForwarded p s
  if !c0.1 then ((true, notForwardedMsg p), c0.2)
  else
    let r1 := issue (pkillPortCmd p) c0.2
    let c2 := checkForwarded p r1.2
    if !c2.1 then ((true, stoppedMsg p), c2.2)
    else ((false, failStopMsg p), c2.2)

/-- Embedding of `list_active_forwards` (lines 133-190) in the oracle
model: issue the listing command and parse its stdout. -/
def list_active_forwards (s : Sys) : List ForwardRec × Sys :=
  let r := issue psListCmd s
  (scanOf (s.script s.idx), r.2)

/-- Embedding of `SocatManager.stop_all_forwards` (lines 99-117): a
generic kill (exit status captured but never consulted), then a
re-scan that alone decides the result. -/
def stop_all_forwards (s : Sys) : (Bool × String) × Sys :=
  let r0 := issue pkillAllCmd s
  let l1 := list_active_forwards r0.2
  if l1.1.length = 0 then ((true, allStoppedMsg), l1.2)
  else ((false, someRemainMsg l1.1.length), l1.2)

/-- The status summary built by `get_status` (lines 192-206). -/
structure StatusRec where
  mode : String
  active : Bool
  forward_count : Nat
  forwards : List ForwardRec
deriving DecidableEq

/-- Embedding of `SocatManager.get_status`: one fresh scan, then a
summary derived from it. -/
def get_status (s : Sys) : StatusRec × Sys :=
  let l := list_active_forwards s
  (⟨"socat", decide (0 < l.1.length), l.1.length, l.1⟩, l.2)

/-! ### Mode transition (main.py, `handle_forwards_menu` choice "6",
lines 303-356) -/

/-- Mode-controller state. -/
structure ModeCtl where
  persistedMode : String
deriving DecidableEq

/-- Modelled from the spec: `set_forward_mode` (imported from
`vortexl2.forward`, whose source is not among the analyzed files)
persists the scalar mode value to the well-known configuration
location; nothing else of it is relied on here. -/
def set_forward_mode (_st : ModeCtl) (m : String) : ModeCtl := ⟨m⟩

/-- Embedding of the mode-change branch (main.py lines 314-344): when
the target mode differs from the current one, the current backend is
stopped best-effort — for socat via `stop_all_socat()`, whose result
is only displayed (success or warning) — and then `set_forward_mode`
is called unconditionally.  Returns the new controller state and the
stop outcome when the socat stop path ran. -/
def changeMode (st : ModeCtl) (currentMode newMode : String)
    (script : Nat → ExecOutcome) : ModeCtl × Option (Bool × String) :=
  if newMode ≠ currentMode then
    if currentMode = "socat" then
      let stopRes := (stop_all_forwards (sysInit script)).1
      (set_forward_mode st newMode, some stopRes)
    else
      (set_forward_mode st newMode, none)
  else (st, none)

/-! ### Characterizations of the oracle-model operations -/

theorem checkForwarded_eq (p : Nat) (s : Sys) :
    checkForwarded p s =
      (respFwd (s.script s.idx), ⟨s.script, s.idx + 1, s.issued ++ [pgrepPortCmd p]⟩) := rfl

theorem stop_forward_notFwd (p : Nat) (s : Sys)
    (h : respFwd (s.script s.idx) = false) :
    stop_forward p s =
      ((true, notForwardedMsg p), ⟨s.script, s.idx + 1, s.issued ++ [pgrepPortCmd p]⟩) := by
  simp only [stop_forward, checkForwarded_eq, h]
  simp

theorem stop_forward_fwd (p : Nat) (s : Sys)
    (h : respFwd (s.script s.idx) = true) :
    stop_forward p s =
      (if respFwd (s.script (s.idx + 2)) = true then (false, failStopMsg p)
        else (true, stoppedMsg p),
       ⟨s.script, s.idx + 3,
        s.issued ++ [pgrepPortCmd p, pkillPortCmd p, pgrepPortCmd p]⟩) := by
  simp only [stop_forward, checkForwarded_eq, issue, h]
  by_cases hb : respFwd (s.script (s.idx + 2)) = true <;>
    simp [hb, List.append_assoc, show s.idx + 1 + 1 = s.idx + 2 from rfl,
      show s.idx + 1 + 1 + 1 = s.idx + 3 from rfl]

theorem list_active_forwards_eq (s : Sys) :
    list_active_forwards s =
      (scanOf (s.script s.idx), ⟨s.script, s.idx + 1, s.issued ++ [psListCmd]⟩) := rfl

theorem stop_all_forwards_eq (script : Nat → ExecOutcome) :
    stop_all_forwards (sysInit script) =
      (if (scanOf (script 1)).length = 0 then (true, allStoppedMsg)
        else (false, someRemainMsg (scanOf (script 1)).length),
       ⟨script, 2, [pkillAllCmd, psListCmd]⟩) := by
  simp only [stop_all_forwards, issue, sysInit, list_active_forwards_eq]
  by_cases h : (scanOf (script 1)).length = 0 <;> simp [h]

/-! ### Command-string facts -/

theorem data_get1_of_append (pre mid suf : String) (ch : Char)
    (hpre : pre.data[1]? = some ch) (h2 : 1 < pre.data.length) :
    (pre ++ mid ++ suf).data[1]? = some ch := by
  have e : (pre ++ mid ++ suf).data = pre.data ++ (mid.data ++ suf.data) := by
    have e1 : ((pre ++ mid) ++ suf).data = (pre.data ++ mid.data) ++ suf.data := rfl
    rw [e1, List.append_assoc]
  rw [e, List.getElem?_append_left h2, hpre]

theorem pkillPortCmd_ne_pgrepPortCmd (p q : Nat) :
    pkillPortCmd p ≠ pgrepPortCmd q := by
  intro h
  have hk : (pkillPortCmd p).data[1]? = some 'k' :=
    data_get1_of_append "pkill -f \x27socat.*TCP-LISTEN:" (natStr p) "[^0-9]\x27" 'k'
      (by decide) (by decide)
  have hg : (pgrepPortCmd q).data[1]? = some 'g' :=
    data_get1_of_append "pgrep -f \x27socat.*TCP-LISTEN:" (natStr q) "[^0-9]\x27" 'g'
      (by decide) (by decide)
  rw [h, hg] at hk
  exact absurd hk (by decide)

theorem pkillAllCmd_ne_pkillPortCmd (p : Nat) : pkillAllCmd ≠ pkillPortCmd p := by
  intro h
  have hl := congrArg String.length h
  have e : (pkillPortCmd p).length = 28 + (natToDec p).length + 7 := by
    show (("pkill -f \x27socat.*TCP-LISTEN:" ++ natStr p) ++ "[^0-9]\x27").length = _
    rw [String.length_append, String.length_append]
    have h1 : ("pkill -f \x27socat.*TCP-LISTEN:" : String).length = 28 := by decide
    have h2 : ("[^0-9]\x27" : String).length = 7 := by decide
    have h3 : (natStr p).length = (natToDec p).length := rfl
    rw [h1, h2, h3]
  rw [e] at hl
  have h4 : (pkillAllCmd).length = 28 := by decide
  rw [h4] at hl
  have h5 := natToDec_len_pos p
  omega

/-! ### Concrete oracle scripts used by witnesses and counterexamples -/

/-- A script on which every pgrep reports no match (exit status 1,
empty stdout) and the process listing fails. -/
def noneFwdScript : Nat → ExecOutcome := fun _ => .completed 1 "" ""

/-- A script driving `start_forward` down its success path: tool
present, port free, launch accepted, settle check observes a pid. -/
def demoStartScript : Nat → ExecOutcome := fun n =>
  match n with
  | 0 => .completed 0 "" ""
  | 1 => .completed 1 "" ""
  | 2 => .completed 0 "" ""
  | _ => .completed 0 "4242" ""

/-- One realistic `ps aux | grep` output line for a socat forward. -/
def psSampleOut : String :=
  "root       123  0.0  0.0   2300   800 ?        S    10:00   0:00 socat TCP-LISTEN:8080,fork,reuseaddr TCP:10.30.30.2:80"

/-- A script on which the generic kill runs but the re-scan still
shows one socat forward. -/
def remainScript : Nat → ExecOutcome := fun n =>
  match n with
  | 0 => .completed 0 "" ""
  | _ => .completed 0 psSampleOut ""

/-- Port forwarded, kill command exits with status 1, settle re-check
then reports the port gone. -/
def stopFwdScript : Nat → ExecOutcome := fun n =>
  match n with
  | 0 => .completed 0 "77" ""
  | 1 => .completed 1 "" ""
  | _ => .completed 1 "" ""

/-- Same pre- and post-check responses as `stopFwdScript`, but the
kill command raises instead. -/
def stopFwdScript2 : Nat → ExecOutcome := fun n =>
  match n with
  | 0 => .completed 0 "77" ""
  | 1 => .raised "boom"
  | _ => .completed 1 "" ""

/-! ### Claim C3 -/

/-- Claim C3, counterexample: on a timeout the stderr diagnostic is
`Command timed out` (capital C), not the claimed exact value
`command timed out`. -/
theorem C3_counterexample :
    run_command ExecOutcome.timedOut ≠ (false, "", "command timed out") := by
  decide

/-- Claim C3 (amended): `run_command` is total over every subprocess
behaviour — a timeout yields `succeeded = false` with stderr
`Command timed out`, any other raised error yields `succeeded = false`
with the error text as stderr, and a completed process yields
`returncode == 0` with its captured output. -/
theorem C3_run_command_never_raises (rc : Int) (out err msg : String) :
    run_command ExecOutcome.timedOut = (false, "", "Command timed out") ∧
    run_command (ExecOutcome.raised msg) = (false, "", msg) ∧
    run_command (ExecOutcome.completed rc out err) = (decide (rc = 0), out, err) :=
  ⟨rfl, rfl, rfl⟩

/-- Witness for the amended C3 at a concrete raised error. -/
theorem C3_witness :
    run_command (ExecOutcome.raised "boom") = (false, "", "boom") :=
  (C3_run_command_never_raises 0 "" "" "boom").2.1

/-! ### Claim C5 -/

/-- Claim C5, counterexample: `start_forward` with local port `0`
(outside 1-65535), empty remote host and remote port `0` is not
rejected synchronously — external commands are issued and, on this
script, the call even returns success. -/
theorem C5_counterexample :
    (start_forward 0 "" 0 (sysInit demoStartScript)).1.1 = true ∧
    (start_forward 0 "" 0 (sysInit demoStartScript)).2.issued ≠ [] := by
  decide

/-- Claim C5 (amended): `start_forward` performs no synchronous input
validation at all — for every input, valid or not, the first thing it
does is issue the external tool check, and every failure is returned
as a result value. -/
theorem C5_no_synchronous_rejection (lp rp : Nat) (ip : String)
    (script : Nat → ExecOutcome) :
    ∃ rest, (start_forward lp ip rp (sysInit script)).2.issued =
      whichSocatCmd :: rest := by
  simp only [start_forward, checkForwarded_eq, issue, sysInit]
  split
  · exact ⟨[], rfl⟩
  · split
    · exact ⟨_, rfl⟩
    · split
      · exact ⟨_, rfl⟩
      · split
        · exact ⟨_, rfl⟩
        · exact ⟨_, rfl⟩

/-- Witness for the amended C5: even the invalid rule (port 0, empty
host) reaches the external tool check. -/
theorem C5_witness :
    ∃ rest, (start_forward 0 "" 0 (sysInit demoStartScript)).2.issued =
      whichSocatCmd :: rest :=
  C5_no_synchronous_rejection 0 0 "" demoStartScript

/-! ### Claim C1 -/

/-- Claim C1, counterexample: with the current mode `socat` and a
script on which `stop_all_socat` reports remaining processes
(failure), the transition to `none` still persists the new mode — the
failed `stopAll` does not abort the transition. -/
theorem C1_counterexample :
    (stop_all_forwards (sysInit remainScript)).1.1 = false ∧
    (changeMode ⟨"socat"⟩ "socat" "none" remainScript).1.persistedMode = "none" ∧
    (changeMode ⟨"socat"⟩ "socat" "none" remainScript).2 =
      some (false, someRemainMsg 1) := by
  decide

/-- Claim C1 (amended): for every transition to a different target
mode, the target mode is persisted unconditionally; when the current
mode is the process-per-port one, the backend `stopAll` is invoked
first, but its outcome — success or reported remaining state — is only
displayed and never aborts the transition or preserves the prior
persisted mode. -/
theorem C1_mode_persisted_regardless (st : ModeCtl) (cur new : String)
    (script : Nat → ExecOutcome) (h : new ≠ cur) :
    (changeMode st cur new script).1 = set_forward_mode st new ∧
    (cur = "socat" →
      (changeMode st cur new script).2 =
        some (stop_all_forwards (sysInit script)).1) := by
  unfold changeMode
  rw [if_pos h]
  by_cases hc : cur = "socat"
  · rw [if_pos hc]
    exact ⟨rfl, fun _ => rfl⟩
  · rw [if_neg hc]
    exact ⟨rfl, fun hcc => absurd hcc hc⟩

/-- Witness for the amended C1 at a concrete transition. -/
theorem C1_witness :
    (changeMode ⟨"socat"⟩ "socat" "none" remainScript).1 =
      set_forward_mode ⟨"socat"⟩ "none" ∧
    (("socat" : String) = "socat" →
      (changeMode ⟨"socat"⟩ "socat" "none" remainScript).2 =
        some (stop_all_forwards (sysInit remainScript)).1) :=
  C1_mode_persisted_regardless ⟨"socat"⟩ "socat" "none" remainScript (by decide)

/-! ### Claim C6 -/

/-- Claim C6: when the pgrep check reports the port not forwarded,
`stop_forward` returns success with the no-op message having issued
only the pgrep query — no kill command — and a second call on the
still non-forwarded port returns the same successful result; the
issued trace of both calls together contains only the two pgrep
queries and no `pkill` command for any port. -/
theorem C6_stop_noop_idempotent (p : Nat) (script : Nat → ExecOutcome)
    (h1 : respFwd (script 0) = false) (h2 : respFwd (script 1) = false) :
    stop_forward p (sysInit script) =
      ((true, notForwardedMsg p), ⟨script, 1, [pgrepPortCmd p]⟩) ∧
    (stop_forward p (stop_forward p (sysInit script)).2).1 =
      (true, notForwardedMsg p) ∧
    (stop_forward p (stop_forward p (sysInit script)).2).2.issued =
      [pgrepPortCmd p, pgrepPortCmd p] ∧
    ∀ q, pkillPortCmd q ∉
      (stop_forward p (stop_forward p (sysInit script)).2).2.issued := by
  have e1 : stop_forward p (sysInit script) =
      ((true, notForwardedMsg p), ⟨script, 1, [pgrepPortCmd p]⟩) :=
    stop_forward_notFwd p (sysInit script) h1
  have e2 : stop_forward p (⟨script, 1, [pgrepPortCmd p]⟩ : Sys) =
      ((true, notForwardedMsg p), ⟨script, 2, [pgrepPortCmd p, pgrepPortCmd p]⟩) := by
    have := stop_forward_notFwd p (⟨script, 1, [pgrepPortCmd p]⟩ : Sys) h2
    simpa using this
  refine ⟨e1, ?_, ?_, ?_⟩
  · rw [e1, e2]
  · rw [e1, e2]
  · intro q
    rw [e1, e2]
    simp only [List.mem_cons, List.not_mem_nil, or_false]
    rintro (hq | hq) <;> exact pkillPortCmd_ne_pgrepPortCmd q p hq

/-- Witness for C6 on a script whose pgrep never matches. -/
theorem C6_witness :
    stop_forward 9 (sysInit noneFwdScript) =
      ((true, notForwardedMsg 9), ⟨noneFwdScript, 1, [pgrepPortCmd 9]⟩) :=
  (C6_stop_noop_idempotent 9 noneFwdScript (by decide) (by decide)).1

/-! ### Claim C7 -/

/-- Claim C7: `stop_all_forwards` issues the generic-signature kill
(a command distinct from every port-specific kill) followed by the
re-scan; it succeeds exactly when the re-scan parses no forwards, and
otherwise fails with a message reporting the count of remaining
processes. -/
theorem C7_stop_all_rescan (script : Nat → ExecOutcome) :
    (stop_all_forwards (sysInit script)).2.issued = [pkillAllCmd, psListCmd] ∧
    (∀ p, pkillAllCmd ≠ pkillPortCmd p) ∧
    ((stop_all_forwards (sysInit script)).1.1 = true ↔ scanOf (script 1) = []) ∧
    (∀ n, (scanOf (script 1)).length = n + 1 →
      (stop_all_forwards (sysInit script)).1 = (false, someRemainMsg (n + 1))) := by
  rw [stop_all_forwards_eq]
  refine ⟨rfl, pkillAllCmd_ne_pkillPortCmd, ?_, ?_⟩
  · by_cases h : (scanOf (script 1)).length = 0
    · simp [h, List.length_eq_zero.mp h]
    · simp only [if_neg h]
      constructor
      · intro hc; exact absurd hc (by simp)
      · intro hc; exact absurd (by rw [hc]; rfl) h
  · intro n hn
    rw [hn]
    simp

/-- Witness for C7 on the script whose re-scan still shows one
process. -/
theorem C7_witness :
    (stop_all_forwards (sysInit remainScript)).1 = (false, someRemainMsg 1) :=
  (C7_stop_all_rescan remainScript).2.2.2 0 (by decide)

/-! ### Claim C9 -/

/-- Claim C9: `get_status` performs one fresh scan per call — it
issues only the read-only listing query, its `forward_count` is the
number of records parsed from that scan's response, `active` holds
exactly when the count is positive, and a second call derives its
count from the next response rather than any cache. -/
theorem C9_get_status_fresh (s : Sys) :
    get_status s =
      (⟨"socat", decide (0 < (scanOf (s.script s.idx)).length),
        (scanOf (s.script s.idx)).length, scanOf (s.script s.idx)⟩,
       ⟨s.script, s.idx + 1, s.issued ++ [psListCmd]⟩) ∧
    ((get_status s).1.active = true ↔ 0 < (get_status s).1.forward_count) ∧
    (get_status (get_status s).2).1.forward_count =
      (scanOf (s.script (s.idx + 1))).length := by
  refine ⟨rfl, ?_, rfl⟩
  simp [get_status, list_active_forwards_eq]

/-- Witness for C9: a second status call is derived from the next
scan response. -/
theorem C9_witness :
    (get_status (get_status (sysInit remainScript)).2).1.forward_count =
      (scanOf (remainScript 1)).length :=
  (C9_get_status_fresh (sysInit remainScript)).2.2

/-! ### Claim C10 -/

/-- Claim C10: for a currently forwarded port, the result of
`stop_forward` does not depend on the kill command's own outcome —
two scripts that agree on the settle re-check but differ arbitrarily
on the kill response produce the same result, which succeeds exactly
when the re-check no longer sees the port; `stop_all_forwards`
likewise ignores the kill outcome and is decided by its re-scan
alone. -/
theorem C10_kill_exit_ignored (p : Nat) (s1 s2 : Nat → ExecOutcome)
    (hf1 : respFwd (s1 0) = true) (hf2 : respFwd (s2 0) = true)
    (hpost : s1 2 = s2 2) :
    (stop_forward p (sysInit s1)).1 = (stop_forward p (sysInit s2)).1 ∧
    ((stop_forward p (sysInit s1)).1.1 = !respFwd (s1 2)) ∧
    (∀ t1 t2 : Nat → ExecOutcome, t1 1 = t2 1 →
      (stop_all_forwards (sysInit t1)).1 = (stop_all_forwards (sysInit t2)).1) := by
  have e1 := stop_forward_fwd p (sysInit s1) hf1
  have e2 := stop_forward_fwd p (sysInit s2) hf2
  refine ⟨?_, ?_, ?_⟩
  · rw [e1, e2]
    have h02 : s1 (0 + 2) = s2 (0 + 2) := hpost
    simp only [sysInit]
    simp only [h02]
  · rw [e1]
    simp only [sysInit]
    by_cases h3 : respFwd (s1 2) = true <;> simp [h3]
  · intro t1 t2 ht
    rw [stop_all_forwards_eq, stop_all_forwards_eq]
    simp only [ht]

/-- Witness for C10: the kill exiting nonzero and the kill raising an
exception give the same successful stop result. -/
theorem C10_witness :
    (stop_forward 5 (sysInit stopFwdScript)).1 =
      (stop_forward 5 (sysInit stopFwdScript2)).1 :=
  (C10_kill_exit_ignored 5 stopFwdScript stopFwdScript2
    (by decide) (by decide) (by decide)).1

/-! ### Claim C2 -/

/-- Claim C2: `start_forward` first fails with the tool-not-installed
message when the tool check fails (only that one command issued); next
fails with the already-forwarded message when the pgrep check reports
the port taken, without the launch command ever being issued; and
after an accepted launch the settle re-check alone decides the result:
success with the started message exactly when the re-check observes
the forward, and the start-verification failure message when it does
not, even though the launch command reported success.  (The real code
sleeps about 200 ms before the re-check; real time is outside the
model, the decisive re-check is what is embedded.) -/
theorem C2_start_forward_contract (lp rp : Nat) (ip : String)
    (script : Nat → ExecOutcome) :
    (respOk (script 0) = false →
      start_forward lp ip rp (sysInit script) =
        ((false, notInstalledMsg), ⟨script, 1, [whichSocatCmd]⟩)) ∧
    (respOk (script 0) = true → respFwd (script 1) = true →
      start_forward lp ip rp (sysInit script) =
        ((false, alreadyForwardedMsg lp),
         ⟨script, 2, [whichSocatCmd, pgrepPortCmd lp]⟩)) ∧
    (respOk (script 0) = true → respFwd (script 1) = false →
     respOk (script 2) = true →
      ((start_forward lp ip rp (sysInit script)).1.1 = respFwd (script 3) ∧
       (respFwd (script 3) = false →
         (start_forward lp ip rp (sysInit script)).1 = (false, notStartedMsg)) ∧
       (respFwd (script 3) = true →
         (start_forward lp ip rp (sysInit script)).1 =
           (true, startedMsg lp ip rp)))) := by
  refine ⟨?_, ?_, ?_⟩
  · intro h0
    simp only [respOk] at h0
    simp only [start_forward, checkForwarded_eq, issue, sysInit]
    simp [h0]
  · intro h0 h1
    simp only [respOk] at h0
    simp only [start_forward, checkForwarded_eq, issue, sysInit]
    simp [h0, h1]
  · intro h0 h1 h2
    simp only [respOk] at h0 h2
    simp only [start_forward, checkForwarded_eq, issue, sysInit]
    by_cases h3 : respFwd (script 3) = true <;> simp [h0, h1, h2, h3]

/-- Witness for C2 on the happy-path script: the launch is accepted
and the settle re-check observes the forward. -/
theorem C2_witness :
    (start_forward 443 "10.0.0.2" 443 (sysInit demoStartScript)).1 =
      (true, startedMsg 443 "10.0.0.2" 443) :=
  (((C2_start_forward_contract 443 443 "10.0.0.2" demoStartScript).2.2
    (by decide) (by decide) (by decide)).2.2) (by decide)

/-! ### Claim C4 -/

/-- A process table with forwards on ports 8 and 80 (spec's testable
pattern-precision scenario). -/
def demoIp : List Char := ['1', '0', '.', '0', '.', '0', '.', '2']

/-- Demo table: forwards active on local ports 8 and 80. -/
def demoTable : List Proc :=
  [⟨101, socatCmdline 8 demoIp 80⟩, ⟨102, socatCmdline 80 demoIp 80⟩]

/-- Claim C4: `is_port_forwarded p` holds exactly when a live process
matches the port-specific listen pattern; a standard socat command
line for a port `q` whose decimal digits properly extend those of `p`
never matches the pattern for `p` (so a forward active only on `q`
does not make `is_port_forwarded p` true); and `stop_forward p` never
removes the process serving such a `q` from the table. -/
theorem C4_pattern_precision (p q rp : Nat) (ip : List Char) (table : List Proc)
    (hip : ∀ c ∈ ip, isHostChar c = true)
    (hpre : ∃ e, e ≠ [] ∧ natToDec q = natToDec p ++ e) :
    (is_port_forwarded_w table p = true ↔
      ∃ pr ∈ table, matchesPortPat p pr.cmdline = true) ∧
    matchesPortPat p (socatCmdline q ip rp) = false ∧
    (∀ pr ∈ table, pr.cmdline = socatCmdline q ip rp →
      pr ∈ (stop_forward_w table p).2) := by
  have hfalse := matchesPortPat_socatCmdline_false p q rp ip hip hpre
  refine ⟨is_port_forwarded_w_iff table p, hfalse, ?_⟩
  intro pr hmem hcmd
  unfold stop_forward_w
  by_cases hf : is_port_forwarded_w table p
  · have hsurvive : pr ∈ pkillPort p table := by
      refine List.mem_filter.mpr ⟨hmem, ?_⟩
      rw [hcmd, hfalse]
      rfl
    rw [hf]
    by_cases hf2 : is_port_forwarded_w (pkillPort p table) p <;>
      simp [hf2, hsurvive]
  · rw [Bool.not_eq_true] at hf
    rw [hf]
    simpa using hmem

/-- Witness for C4: ports 8 and 80 both forwarded; `is_port_forwarded`
is characterized by pattern matching, port 80's line does not match
port 8's pattern, and stopping port 8 leaves the port-80 process. -/
theorem C4_witness :
    (is_port_forwarded_w demoTable 8 = true ↔
      ∃ pr ∈ demoTable, matchesPortPat 8 pr.cmdline = true) ∧
    matchesPortPat 8 (socatCmdline 80 demoIp 80) = false ∧
    (∀ pr ∈ demoTable, pr.cmdline = socatCmdline 80 demoIp 80 →
      pr ∈ (stop_forward_w demoTable 8).2) :=
  C4_pattern_precision 8 80 80 demoIp demoTable (by decide)
    ⟨['0'], by decide, by decide⟩

/-! ### Soundness of the process-listing parser -/

theorem takeDigits_spec (l : List Char) :
    l = (takeDigits l).1 ++ (takeDigits l).2 ∧
    ∀ c ∈ (takeDigits l).1, c.isDigit = true := by
  induction l with
  | nil => simp [takeDigits]
  | cons c rest ih =>
    by_cases hc : c.isDigit
    · simp only [takeDigits, hc, if_true]
      constructor
      · rw [List.cons_append, ← ih.1]
      · intro d hd
        rcases List.mem_cons.mp hd with hd | hd
        · rw [hd]; exact hc
        · exact ih.2 d hd
    · simp [takeDigits, hc]

theorem takeHostChars_spec (l : List Char) :
    l = (takeHostChars l).1 ++ (takeHostChars l).2 ∧
    ∀ c ∈ (takeHostChars l).1, isHostChar c = true := by
  induction l with
  | nil => simp [takeHostChars]
  | cons c rest ih =>
    by_cases hc : isHostChar c
    · simp only [takeHostChars, hc, if_true]
      constructor
      · rw [List.cons_append, ← ih.1]
      · intro d hd
        rcases List.mem_cons.mp hd with hd | hd
        · rw [hd]; exact hc
        · exact ih.2 d hd
    · simp [takeHostChars, hc]

theorem findFirst_some {α : Type} (f : List Char → Option α) :
    ∀ l v, findFirst f l = some v → ∃ a b, l = a ++ b ∧ f b = some v := by
  intro l
  induction l with
  | nil => intro v h; exact ⟨[], [], rfl, h⟩
  | cons c rest ih =>
    intro v h
    unfold findFirst at h
    rcases hf : f (c :: rest) with _ | w
    · rw [hf] at h
      rcases ih v h with ⟨a, b, hab, hb⟩
      exact ⟨c :: a, b, by rw [hab, List.cons_append], hb⟩
    · rw [hf] at h
      cases h
      exact ⟨[], c :: rest, rfl, hf⟩

theorem suffixFrom_some (pat : List Char) :
    ∀ l t, suffixFrom pat l = some t →
      (∃ u, l = u ++ t) ∧ ∃ v, t = pat ++ v := by
  intro l
  induction l with
  | nil =>
    intro t h
    unfold suffixFrom at h
    rcases hm : matchPre pat [] with _ | r
    · rw [hm] at h; simp at h
    · rw [hm] at h
      simp at h
      subst h
      exact ⟨⟨[], rfl⟩, r, (matchPre_some_iff pat [] r).mp hm⟩
  | cons c rest ih =>
    intro t h
    unfold suffixFrom at h
    rcases hm : matchPre pat (c :: rest) with _ | r
    · rw [hm] at h
      simp only [Option.isSome_none, Bool.false_eq_true, if_false] at h
      rcases ih t h with ⟨⟨u, hu⟩, v, hv⟩
      exact ⟨⟨c :: u, by rw [hu, List.cons_append]⟩, v, hv⟩
    · rw [hm] at h
      simp at h
      subst h
      exact ⟨⟨[], rfl⟩, r, (matchPre_some_iff pat _ r).mp hm⟩

theorem suffixFrom_none (pat : List Char) :
    ∀ l, suffixFrom pat l = none → ∀ u v, l ≠ u ++ pat ++ v := by
  intro l
  induction l with
  | nil =>
    intro h u v huv
    have hu : u = [] := by
      cases u with
      | nil => rfl
      | cons a as => exact absurd huv (by simp)
    subst hu
    rw [List.nil_append] at huv
    have hpat : pat = [] := by
      cases pat with
      | nil => rfl
      | cons a as => exact absurd huv (by simp)
    subst hpat
    unfold suffixFrom at h
    simp [matchPre] at h
  | cons c rest ih =>
    intro h u v huv
    unfold suffixFrom at h
    rcases hm : matchPre pat (c :: rest) with _ | r
    · rw [hm] at h
      simp only [Option.isSome_none, Bool.false_eq_true, if_false] at h
      cases u with
      | nil =>
        rw [List.nil_append] at huv
        have := (matchPre_some_iff pat (c :: rest) v).mpr huv
        rw [this] at hm
        cases hm
      | cons d u' =>
        rw [List.cons_append, List.cons_append] at huv
        injection huv with h1 h2
        exact ih h u' v h2
    · rw [hm] at h; simp at h

theorem listenNumHere_some (s : List Char) (n : Nat)
    (h : listenNumHere s = some n) :
    ∃ ds v, s = tcpListenTok ++ ds ++ v ∧ ds ≠ [] ∧
      (∀ c ∈ ds, c.isDigit = true) ∧ digitsVal ds = n := by
  unfold listenNumHere at h
  rcases hm : matchPre tcpListenTok s with _ | r
  · rw [hm] at h; cases h
  · rw [hm] at h
    simp only at h
    by_cases hd : (takeDigits r).1.isEmpty
    · rw [if_pos hd] at h; cases h
    · rw [if_neg hd] at h
      have hn : digitsVal (takeDigits r).1 = n := by
        injection h
      have hs := (matchPre_some_iff _ _ _).mp hm
      have hspec := takeDigits_spec r
      refine ⟨(takeDigits r).1, (takeDigits r).2, ?_, ?_, hspec.2, hn⟩
      · rw [hs, List.append_assoc, ← hspec.1]
      · intro hnil
        rw [hnil] at hd
        exact hd (by simp)

theorem remoteHere_some (s : List Char) (hp : List Char) (n : Nat)
    (h : remoteHere s = some (hp, n)) :
    ∃ ds v, s = tcpColonTok ++ hp ++ ':' :: (ds ++ v) ∧ hp ≠ [] ∧
      (∀ c ∈ hp, isHostChar c = true) ∧ ds ≠ [] ∧
      (∀ c ∈ ds, c.isDigit = true) ∧ digitsVal ds = n := by
  unfold remoteHere at h
  rcases hm : matchPre tcpColonTok s with _ | r
  · rw [hm] at h; cases h
  · rw [hm] at h
    simp only at h
    by_cases hh : (takeHostChars r).1.isEmpty
    · rw [if_pos hh] at h; cases h
    · rw [if_neg hh] at h
      split at h
      case _ r2 heq2 =>
        by_cases hd : (takeDigits r2).1.isEmpty
        · rw [if_pos hd] at h; cases h
        · rw [if_neg hd] at h
          simp only [Option.some.injEq, Prod.mk.injEq] at h
          have hs := (matchPre_some_iff _ _ _).mp hm
          have h1 := (takeHostChars_spec r).1
          rw [heq2, h.1] at h1
          have h2 := (takeDigits_spec r2).1
          rw [h2] at h1
          refine ⟨(takeDigits r2).1, (takeDigits r2).2, ?_, ?_, ?_, ?_,
            (takeDigits_spec r2).2, h.2⟩
          · rw [hs, h1]
            simp [List.append_assoc]
          · intro hnil
            rw [h.1, hnil] at hh
            exact hh (by simp)
          · rw [← h.1]; exact (takeHostChars_spec r).2
          · intro hnil
            rw [hnil] at hd
            exact hd (by simp)
      case _ =>
        cases h

theorem findListen_some (cp : List Char) (n : Nat) (h : findListen cp = some n) :
    ∃ u ds v, cp = u ++ tcpListenTok ++ ds ++ v ∧ ds ≠ [] ∧
      (∀ c ∈ ds, c.isDigit = true) ∧ digitsVal ds = n := by
  rcases findFirst_some listenNumHere cp n h with ⟨a, b, hab, hb⟩
  rcases listenNumHere_some b n hb with ⟨ds, v, hbv, hne, hdig, hval⟩
  refine ⟨a, ds, v, ?_, hne, hdig, hval⟩
  rw [hab, hbv]
  simp [List.append_assoc]

theorem findRemote_some (cp : List Char) (hp : List Char) (n : Nat)
    (h : findRemote cp = some (hp, n)) :
    ∃ u ds v, cp = u ++ tcpColonTok ++ hp ++ ':' :: (ds ++ v) ∧ hp ≠ [] ∧
      (∀ c ∈ hp, isHostChar c = true) ∧ ds ≠ [] ∧
      (∀ c ∈ ds, c.isDigit = true) ∧ digitsVal ds = n := by
  rcases findFirst_some remoteHere cp (hp, n) h with ⟨a, b, hab, hb⟩
  rcases remoteHere_some b hp n hb with ⟨ds, v, hbv, hne, hhost, hdne, hdig, hval⟩
  refine ⟨a, ds, v, ?_, hne, hhost, hdne, hdig, hval⟩
  rw [hab, hbv]
  simp [List.append_assoc]

theorem parseLine_none_short (line : List Char)
    (h : (splitWS line).length < 11) : parseLine line = none := by
  unfold parseLine
  by_cases he : line.isEmpty <;> simp [he, h]

theorem parseLine_none_noSocat (line : List Char)
    (h : suffixFrom socatTok line = none) : parseLine line = none := by
  unfold parseLine
  by_cases he : line.isEmpty <;>
    by_cases hl : (splitWS line).length < 11 <;> simp [he, hl, h]

theorem parseLine_none_noListen (line cp : List Char)
    (hcp : suffixFrom socatTok line = some cp) (h : findListen cp = none) :
    parseLine line = none := by
  unfold parseLine
  by_cases he : line.isEmpty <;>
    by_cases hl : (splitWS line).length < 11 <;> simp [he, hl, hcp, h]

theorem parseLine_none_noRemote (line cp : List Char)
    (hcp : suffixFrom socatTok line = some cp) (h : findRemote cp = none) :
    parseLine line = none := by
  unfold parseLine
  by_cases he : line.isEmpty <;>
    by_cases hl : (splitWS line).length < 11 <;>
      rcases hfl : findListen cp with _ | lp <;> simp [he, hl, hcp, hfl, h]

theorem parseLine_some_fields (line : List Char) (r : ForwardRec)
    (h : parseLine line = some r) :
    11 ≤ (splitWS line).length ∧ r.pid = (splitWS line).getD 1 [] ∧
    ∃ cp, suffixFrom socatTok line = some cp ∧
      findListen cp = some r.local_port ∧
      findRemote cp = some (r.remote_ip, r.remote_port) := by
  by_cases he : line.isEmpty
  · rw [show parseLine line = none from by unfold parseLine; simp [he]] at h
    cases h
  · by_cases hl : (splitWS line).length < 11
    · rw [parseLine_none_short line hl] at h; cases h
    · rcases hsf : suffixFrom socatTok line with _ | cp
      · rw [parseLine_none_noSocat line hsf] at h; cases h
      · rcases hlp : findListen cp with _ | lp
        · rw [parseLine_none_noListen line cp hsf hlp] at h; cases h
        · rcases hrh : findRemote cp with _ | rh
          · rw [parseLine_none_noRemote line cp hsf hrh] at h; cases h
          · have hx : parseLine line =
                some ⟨(splitWS line).getD 1 [], lp, rh.1, rh.2⟩ := by
              unfold parseLine
              simp [he, hl, hsf, hlp, hrh]
            rw [hx] at h
            simp only [Option.some.injEq] at h
            subst h
            exact ⟨by omega, rfl, cp, rfl, hlp, hrh⟩

/-! ### Claim C8 -/

/-- Claim C8: the process-listing parser is total — for every raw
output, every record it returns comes from a line that has at least 11
whitespace-separated columns, contains the `socat` signature, and
whose command part (the suffix from the first `socat`) contains a
`TCP-LISTEN:<digits>` token giving the local port and a
`TCP:<host>:<digits>` token giving the remote host and port, with the
pid taken from the second column; and every line missing any of these
is silently skipped (parsed to `none`), never an error. -/
theorem C8_parser_skips_malformed (o : ExecOutcome) :
    (∀ r ∈ scanOf o, ∃ line ∈ splitNl (pythonStrip (run_command o).2.1.toList),
      parseLine line = some r ∧
      11 ≤ (splitWS line).length ∧
      r.pid = (splitWS line).getD 1 [] ∧
      ∃ u cp, line = u ++ cp ∧ (∃ v0, cp = socatTok ++ v0) ∧
        (∃ u1 ds1 v1, cp = u1 ++ tcpListenTok ++ ds1 ++ v1 ∧ ds1 ≠ [] ∧
          (∀ c ∈ ds1, c.isDigit = true) ∧ digitsVal ds1 = r.local_port) ∧
        (∃ u2 ds2 v2, cp = u2 ++ tcpColonTok ++ r.remote_ip ++ ':' :: (ds2 ++ v2) ∧
          r.remote_ip ≠ [] ∧ (∀ c ∈ r.remote_ip, isHostChar c = true) ∧
          ds2 ≠ [] ∧ (∀ c ∈ ds2, c.isDigit = true) ∧
          digitsVal ds2 = r.remote_port)) ∧
    (∀ line, (splitWS line).length < 11 → parseLine line = none) ∧
    (∀ line, (∀ u v, line ≠ u ++ socatTok ++ v) → parseLine line = none) ∧
    (∀ line cp, suffixFrom socatTok line = some cp → findListen cp = none →
      parseLine line = none) ∧
    (∀ line cp, suffixFrom socatTok line = some cp → findRemote cp = none →
      parseLine line = none) := by
  refine ⟨?_, parseLine_none_short, ?_, parseLine_none_noListen,
    parseLine_none_noRemote⟩
  · intro r hr
    simp only [scanOf] at hr
    split at hr
    · simp at hr
    · rcases List.mem_filterMap.mp hr with ⟨line, hline, hpl⟩
      rcases parseLine_some_fields line r hpl with ⟨hlen, hpid, cp, hcp, hlp, hrh⟩
      rcases suffixFrom_some socatTok line cp hcp with ⟨⟨u, hu⟩, v0, hv0⟩
      rcases findListen_some cp r.local_port hlp with
        ⟨u1, ds1, v1, hsplit1, hne1, hdig1, hval1⟩
      rcases findRemote_some cp r.remote_ip r.remote_port hrh with
        ⟨u2, ds2, v2, hsplit2, hne2, hhost2, hdne2, hdig2, hval2⟩
      exact ⟨line, hline, hpl, hlen, hpid, u, cp, hu, ⟨v0, hv0⟩,
        ⟨u1, ds1, v1, hsplit1, hne1, hdig1, hval1⟩,
        ⟨u2, ds2, v2, hsplit2, hne2, hhost2, hdne2, hdig2, hval2⟩⟩
  · intro line hno
    rcases hsf : suffixFrom socatTok line with _ | cp
    · exact parseLine_none_noSocat line hsf
    · exfalso
      rcases suffixFrom_some socatTok line cp hsf with ⟨⟨u, hu⟩, v0, hv0⟩
      refine hno u v0 ?_
      rw [hu, hv0]
      simp [List.append_assoc]

/-- Witness for C8: a noise line with too few columns parses to
`none` rather than failing. -/
theorem C8_witness : parseLine ("no forwards here".toList) = none :=
  (C8_parser_skips_malformed (ExecOutcome.completed 0 "no forwards here" "")).2.1
    ("no forwards here".toList) (by decide)

end VortexL2
